import Mathlib

/-!
Verification of the libhoney-js transmission subsystem
(`src/dist/libhoney.es.js`): a shallow embedding of the
`Transmission` dispatcher state machine, the `ValidatedEvent` JSON
serializer, the `BatchEndpointAggregator` batch encoder, the per-event
response fan-out, and the bounded response-queue helper
`concatWithMaxLimit`, together with theorems settling the spec claims.

Modelling conventions:
- JS numbers that the code only compares and counts are `Nat`;
  the sampling computation, which divides, uses `ℚ`.
- JS `undefined`/absent fields are `Option`; JS truthiness of a number
  is `≠ 0` on the present value (`NaN` does not arise on modelled paths).
- `JSON.stringify`, which can throw on circular payloads, is a parameter
  `stringify : ValidatedEvent → Except String String`.
- Opaque values (metadata, timestamps, payloads, error objects) are
  `Nat`/`String` tokens carried verbatim, as the code carries them.
-/

namespace Libhoney

/-- A JSON value appearing in a serialized event object. -/
inductive JVal where
  | jstr (s : String)
  | jnum (q : ℚ)
  | jraw (s : String)
deriving DecidableEq

/-- The `ValidatedEvent` class (lines 95-112).  `encodeError` is absent at
construction time and set by the batch encoder when serialization throws. -/
structure ValidatedEvent where
  timestamp : Option String := none
  apiHost : String := ""
  postData : Option String := none
  writeKey : String := ""
  dataset : String := ""
  sampleRate : Option ℚ := none
  metadata : Nat := 0
  encodeError : Option String := none
deriving DecidableEq

/-- JS truthiness of an optional number: `undefined` and `0` are falsy. -/
def jsTruthyNum : Option ℚ → Bool
  | none => false
  | some q => q != 0

/-- `ValidatedEvent.toJSON` (lines 114-126): each of the three keys is
included exactly when the corresponding field is JS-truthy on the event. -/
def ValidatedEvent.toJSON (ev : ValidatedEvent) : List (String × JVal) :=
  (if ev.timestamp.isSome then [("time", JVal.jstr (ev.timestamp.getD ""))] else [])
    ++ (if jsTruthyNum ev.sampleRate then
          [("samplerate", JVal.jnum (ev.sampleRate.getD 0))] else [])
    ++ (if ev.postData.isSome then [("data", JVal.jraw (ev.postData.getD ""))] else [])

/-- An outcome record handed to the response callback.  A field that the
code leaves off the object literal is `none`. -/
structure Outcome where
  status_code : Option Nat := none
  duration : Option Nat := none
  metadata : Nat := 0
  error : Option String := none
deriving DecidableEq

/-- One element of the server's per-event response array:
`{ "status": <int>, "err": <string|null> }`. -/
structure BatchResponse where
  status : Nat := 0
  err : Option String := none
deriving DecidableEq

/-- `concatWithMaxLimit` (lines 1274-1292), the bounded concatenation used
by `Libhoney._responseCallback` to cap the response queue. -/
def concatWithMaxLimit {α : Type} (arr1 arr2 : List α) (limit : Nat) : List α :=
  if arr1.length ≥ limit then arr1.take limit
  else if arr1.length + arr2.length > limit then
    arr1 ++ arr2.take (limit - arr1.length)
  else arr1 ++ arr2

/-- Concatenation of a list of strings. -/
def strConcat : List String → String
  | [] => ""
  | x :: xs => x ++ strConcat xs

/-- Join strings with a separator, written to mirror the comma placement of
the encoder's fold: the first element bare, every later one prefixed. -/
def joinSep (sep : String) : List String → String
  | [] => ""
  | x :: xs => x ++ strConcat (xs.map (fun s => sep ++ s))

/-- The serializations that succeed, in order. -/
def encodedList (stringify : ValidatedEvent → Except String String)
    (events : List ValidatedEvent) : List String :=
  events.filterMap (fun ev => (stringify ev).toOption)

/-- The event list after encoding: an event whose serialization threw `e`
has `encodeError` set to `e`, the others are unchanged (lines 74-85). -/
def markEncodeErrors (stringify : ValidatedEvent → Except String String)
    (events : List ValidatedEvent) : List ValidatedEvent :=
  events.map (fun ev =>
    match stringify ev with
    | .ok _ => ev
    | .error e => { ev with encodeError := some e })

/-- The fold of `BatchEndpointAggregator.encodeBatchEvents` (lines 71-89),
carrying the `first` flag, the running count and the accumulated body, and
returning `(accumulated body, numEncoded, updated events)`. -/
def encodeBatchEventsAux (stringify : ValidatedEvent → Except String String) :
    List ValidatedEvent → Bool → Nat → String → String × Nat × List ValidatedEvent
  | [], _, numEncoded, acc => (acc, numEncoded, [])
  | ev :: rest, first, numEncoded, acc =>
    match stringify ev with
    | .ok s =>
      let newAcc := acc ++ (if !first then "," else "") ++ s
      let r := encodeBatchEventsAux stringify rest false (numEncoded + 1) newAcc
      (r.1, r.2.1, ev :: r.2.2)
    | .error e =>
      let r := encodeBatchEventsAux stringify rest first numEncoded acc
      (r.1, r.2.1, { ev with encodeError := some e } :: r.2.2)

/-- Result of `encodeBatchEvents`: the bracketed body, the number of events
successfully serialized, and the (possibly `encodeError`-marked) events. -/
structure EncodeResult where
  encoded : String
  numEncoded : Nat
  events : List ValidatedEvent
deriving DecidableEq

/-- `BatchEndpointAggregator.encodeBatchEvents` (lines 71-89). -/
def encodeBatchEvents (stringify : ValidatedEvent → Except String String)
    (events : List ValidatedEvent) : EncodeResult :=
  let r := encodeBatchEventsAux stringify events true 0 ""
  { encoded := "[" ++ r.1 ++ "]", numEncoded := r.2.1, events := r.2.2 }

/-- What `_sendBatch` does with one partition before any network activity
(lines 331-343): when nothing encoded, emit one `encodeError` outcome per
event and skip the POST; otherwise POST the encoded body. -/
inductive PartitionAction where
  | noSend (outcomes : List Outcome)
  | send (body : String) (events : List ValidatedEvent)
deriving DecidableEq

/-- The per-partition branch of `_sendBatch` (lines 331-343). -/
def partitionAction (stringify : ValidatedEvent → Except String String)
    (events : List ValidatedEvent) : PartitionAction :=
  let r := encodeBatchEvents stringify events
  if r.numEncoded = 0 then
    .noSend (r.events.map (fun ev => { metadata := ev.metadata, error := ev.encodeError }))
  else
    .send r.encoded r.events

/-- Number of events of a partition without an `encodeError`, i.e. the
successfully-encoded ones the response array is parallel to. -/
def encodedCount (events : List ValidatedEvent) : Nat :=
  events.countP (fun ev => ev.encodeError.isNone)

/-- The 2xx response fan-out of `_sendBatch` (lines 373-394): walk the
partition's events; an event with `encodeError` keeps its encode outcome,
any other event consumes the next response element (`respIdx++`). -/
def mapBatchResponses (dur : Nat) (responseData : List BatchResponse) :
    List ValidatedEvent → Nat → List Outcome
  | [], _ => []
  | ev :: rest, respIdx =>
    match ev.encodeError with
    | some e =>
      { duration := some dur, metadata := ev.metadata, error := some e }
        :: mapBatchResponses dur responseData rest respIdx
    | none =>
      { status_code := (responseData.get? respIdx).map BatchResponse.status,
        duration := some dur,
        metadata := ev.metadata,
        error := (responseData.get? respIdx).bind BatchResponse.err }
        :: mapBatchResponses dur responseData rest (respIdx + 1)

/-- Module constant `USER_AGENT` (line 9). -/
def USER_AGENT : String := "libhoney-js/3.1.1"

/-- JS `String.prototype.trim`: strip leading and trailing whitespace,
modelled on the character list so that it evaluates in the kernel. -/
def jsTrim (s : String) : String :=
  ⟨((s.data.dropWhile Char.isWhitespace).reverse.dropWhile Char.isWhitespace).reverse⟩

/-- The user-agent value sent with a batch POST (lines 345-349). -/
def userAgentHeaderValue (addition : String) : String :=
  let trimmedAddition := jsTrim addition
  if trimmedAddition = "" then USER_AGENT else USER_AGENT ++ " " ++ trimmedAddition

/-- Modelled from the spec: the header key carrying the user agent.  The
dist build under `src/` inlines the build target into the conditional at
line 357 (`["node" === "browser" ? "X-Honeycomb-UserAgent" : "User-Agent"]`),
so the browser-target build of this repository is not under `src/`; the
repository's test "should use X-Honeycomb-UserAgent in browser" drives the
target via `process.env.LIBHONEY_TARGET`.  The conditional's structure with
the target abstracted: -/
def uaHeaderName (target : String) : String :=
  if target = "browser" then "X-Honeycomb-UserAgent" else "User-Agent"

/-- The header list of a batch POST (lines 353-361), as (name, value) pairs
in object-literal order. -/
def batchRequestHeaders (target writeKey uaAddition : String) : List (String × String) :=
  [("X-Honeycomb-Team", writeKey),
   (uaHeaderName target, userAgentHeaderValue uaAddition),
   ("Content-Type", "application/json")]

/-- Module constant (line 19): default batch size trigger. -/
def batchSizeTrigger : Nat := 50

/-- Module constant (line 20): default batch time trigger, ms. -/
def batchTimeTrigger : Nat := 100

/-- Module constant (line 23): the cap `_sendBatch` actually tests. -/
def maxConcurrentBatches : Nat := 10

/-- Module constant (line 26): default pending work capacity. -/
def pendingWorkCapacity : Nat := 10000

/-- Module constant (line 29): default POST deadline, ms. -/
def deadlineTimeoutMs : Nat := 60000

/-- The numeric/string options the `Transmission` constructor reads;
`none` models an option that is absent or not a number. -/
structure TransmissionOptions where
  batchSizeTrigger : Option Nat := none
  batchTimeTrigger : Option Nat := none
  maxConcurrentBatches : Option Nat := none
  pendingWorkCapacity : Option Nat := none
  timeout : Option Nat := none
  userAgentAddition : Option String := none

/-- The configuration a constructed `Transmission` holds. -/
structure TransmissionConfig where
  batchSizeTrigger : Nat
  batchTimeTrigger : Nat
  maxConcurrentBatches : Nat
  pendingWorkCapacity : Nat
  timeout : Nat
  userAgentAddition : String
deriving DecidableEq

/-- The `Transmission` constructor (lines 205-240): defaults from the
module constants, a numeric `batchSizeTrigger` clamped by
`Math.max(·, 1)`, `userAgentAddition` defaulted to `""`. -/
def mkTransmission (options : TransmissionOptions) : TransmissionConfig :=
  { batchSizeTrigger :=
      match options.batchSizeTrigger with
      | some b => max b 1
      | none => batchSizeTrigger
    batchTimeTrigger := options.batchTimeTrigger.getD batchTimeTrigger
    maxConcurrentBatches := options.maxConcurrentBatches.getD maxConcurrentBatches
    pendingWorkCapacity := options.pendingWorkCapacity.getD pendingWorkCapacity
    timeout := options.timeout.getD deadlineTimeoutMs
    userAgentAddition := options.userAgentAddition.getD "" }

/-- The mutable state of a `Transmission`: the queue, the in-flight batch
count, whether the deferred timer is armed (`_sendTimeoutId !== -1`), the
single registered flush callback (tagged with the flush call's id), plus
two observation logs: the ids of flush promises that resolved and every
outcome handed to `_responseCallback`, in order. -/
structure TransmissionState where
  eventQueue : List ValidatedEvent := []
  batchCount : Nat := 0
  timerArmed : Bool := false
  flushWaiter : Option Nat := none
  resolvedFlushes : List Nat := []
  outcomes : List Outcome := []
deriving DecidableEq

/-- The state right after construction (lines 212-214). -/
def initState : TransmissionState := {}

/-- `_droppedCallback` (lines 242-249): one outcome whose error is the
reason, metadata passed verbatim. -/
def droppedCallback (s : TransmissionState) (ev : ValidatedEvent)
    (reason : String) : TransmissionState :=
  { s with outcomes := s.outcomes ++ [{ metadata := ev.metadata, error := some reason }] }

/-- `_shouldSendEvent` (lines 419-425) with the injected random source's
value `r`.  An absent `sampleRate` fails both JS comparisons (`undefined
<= 1` and `r < 1/undefined` are false), so the event is not sent. -/
def shouldSendEvent (r : ℚ) (ev : ValidatedEvent) : Bool :=
  match ev.sampleRate with
  | some sampleRate => if sampleRate ≤ 1 then true else decide (r < 1 / sampleRate)
  | none => false

/-- The synchronous head of `_sendBatch` (lines 288-301): the guard
compares `_batchCount` with the MODULE constant `maxConcurrentBatches`,
not the configured `cfg.maxConcurrentBatches`; past the guard it clears
the timer, increments the count and splices off the batch prefix.
Returns the new state and the spliced-off events. -/
def sendBatchStart (cfg : TransmissionConfig) (s : TransmissionState) :
    TransmissionState × List ValidatedEvent :=
  if s.batchCount = maxConcurrentBatches then (s, [])
  else
    ({ s with
        timerArmed := false
        batchCount := s.batchCount + 1
        eventQueue := s.eventQueue.drop cfg.batchSizeTrigger },
      s.eventQueue.take cfg.batchSizeTrigger)

/-- `sendPresampledEvent` (lines 261-272). -/
def sendPresampledEvent (cfg : TransmissionConfig) (s : TransmissionState)
    (ev : ValidatedEvent) : TransmissionState :=
  if s.eventQueue.length ≥ cfg.pendingWorkCapacity then
    droppedCallback s ev "queue overflow"
  else
    let s1 := { s with eventQueue := s.eventQueue ++ [ev] }
    if s1.eventQueue.length ≥ cfg.batchSizeTrigger then (sendBatchStart cfg s1).1
    else { s1 with timerArmed := true }

/-- `sendEvent` (lines 251-259). -/
def sendEvent (cfg : TransmissionConfig) (s : TransmissionState) (r : ℚ)
    (ev : ValidatedEvent) : TransmissionState :=
  if !shouldSendEvent r ev then
    droppedCallback s ev "event dropped due to sampling"
  else
    sendPresampledEvent cfg s ev

/-- The `finishBatch` closure of `_sendBatch` (lines 303-319): decrement
the count; with a non-empty queue either re-cut or arm the timer; with an
empty queue and no batch in flight, fire the registered flush callback,
which nulls itself and resolves its promise. -/
def finishBatch (cfg : TransmissionConfig) (s : TransmissionState) : TransmissionState :=
  let s1 := { s with batchCount := s.batchCount - 1 }
  if s1.eventQueue.length > 0 then
    if s1.eventQueue.length ≥ cfg.batchSizeTrigger then (sendBatchStart cfg s1).1
    else { s1 with timerArmed := true }
  else
    match s1.flushWaiter with
    | some id =>
      if s1.batchCount = 0 then
        { s1 with flushWaiter := none, resolvedFlushes := s1.resolvedFlushes ++ [id] }
      else s1
    | none => s1

/-- `flush` (lines 274-286), the call tagged `id`: the returned `Bool` is
whether an already-resolved promise is returned; otherwise the callback
slot `this.flushCallback` is overwritten with this call's resolver. -/
def flushStep (s : TransmissionState) (id : Nat) : TransmissionState × Bool :=
  if s.eventQueue.length = 0 ∧ s.batchCount = 0 then (s, true)
  else ({ s with flushWaiter := some id }, false)

/-- The externally-driven inputs of the dispatcher state machine. -/
inductive Step where
  | send (r : ℚ) (ev : ValidatedEvent)
  | sendPresampled (ev : ValidatedEvent)
  | timerFire
  | complete
  | flushReq (id : Nat)

/-- One input applied to the state.  `timerFire` runs `_sendBatch` when the
timer is armed; `complete` runs `finishBatch` and is only meaningful while
a batch is in flight (the code runs it exactly once per started batch). -/
def applyStep (cfg : TransmissionConfig) (s : TransmissionState) : Step → TransmissionState
  | .send r ev => sendEvent cfg s r ev
  | .sendPresampled ev => sendPresampledEvent cfg s ev
  | .timerFire => if s.timerArmed then (sendBatchStart cfg s).1 else s
  | .complete => if 0 < s.batchCount then finishBatch cfg s else s
  | .flushReq id => (flushStep s id).1

/-- A run of the machine from the freshly-constructed state. -/
def runTrace (cfg : TransmissionConfig) (steps : List Step) : TransmissionState :=
  steps.foldl (applyStep cfg) initState

/-- A concrete event whose `sampleRate` is `1`. -/
def sampledOnceEvent : ValidatedEvent :=
  { timestamp := some "2026-01-01T00:00:00.000Z", sampleRate := some 1, postData := some "x" }

/-- A concrete event distinguished by its metadata tag. -/
def taggedEvent (i : Nat) : ValidatedEvent := { metadata := i }

/-- A concrete event carrying only a sample rate. -/
def sampledEvent (k : ℚ) : ValidatedEvent := { sampleRate := some k }

/-- A configuration with `maxConcurrentBatches` set to `5` and a batch cut
on every event. -/
def fiveBatchConfig : TransmissionConfig :=
  mkTransmission
    { batchSizeTrigger := some 1, maxConcurrentBatches := some 5,
      pendingWorkCapacity := some 100 }

/-- Six presampled sends with no batch completions in between. -/
def sixSendsTrace : List Step :=
  (List.range 6).map (fun i => Step.sendPresampled (taggedEvent i))

/-- A state whose in-flight count equals the configured maximum of
`fiveBatchConfig`, with one queued event. -/
def stateAtConfiguredCap : TransmissionState :=
  { initState with batchCount := 5, eventQueue := [taggedEvent 5] }

/-- A configuration cutting a batch on every event, otherwise defaults. -/
def cutEachConfig : TransmissionConfig := mkTransmission { batchSizeTrigger := some 1 }

/-- One send (which starts a batch), then two flush calls, then the batch
completion. -/
def doubleFlushTrace : List Step :=
  [Step.sendPresampled (taggedEvent 0), Step.flushReq 1, Step.flushReq 2, Step.complete]

/-- C10: `concatWithMaxLimit q r L` is `q`'s oldest elements followed by a
prefix of `r`: exactly `q.take L ++ r.take (L - q.length)`.  Its length is
`min L (q.length + r.length)` when `q.length < L` and `L` when
`q.length ≥ L`, and never exceeds `L`, so the `Libhoney` response queue
stays within `maxResponseQueueSize`. -/
theorem concatWithMaxLimit_bounded {α : Type} (q r : List α) (L : Nat) :
    concatWithMaxLimit q r L = q.take L ++ r.take (L - q.length) ∧
    (q.length < L → (concatWithMaxLimit q r L).length = min L (q.length + r.length)) ∧
    (L ≤ q.length → (concatWithMaxLimit q r L).length = L) ∧
    (concatWithMaxLimit q r L).length ≤ L := by
  unfold concatWithMaxLimit
  by_cases h1 : q.length ≥ L
  · rw [if_pos h1]
    have h0 : L - q.length = 0 := by omega
    refine ⟨by simp [h0], fun h2 => by omega, fun _ => ?_, ?_⟩
    · simp [List.length_take]
      omega
    · simp [List.length_take]
  · rw [if_neg h1]
    have hq : q.take L = q := List.take_of_length_le (by omega)
    by_cases h2 : q.length + r.length > L
    · rw [if_pos h2]
      refine ⟨by rw [hq], fun _ => ?_, fun hL => by omega, ?_⟩
      · simp [List.length_take]
        omega
      · simp [List.length_take]
        omega
    · rw [if_neg h2]
      have hr : r.take (L - q.length) = r := List.take_of_length_le (by omega)
      refine ⟨by rw [hq, hr], fun _ => ?_, fun hL => by omega, ?_⟩
      · simp
        omega
      · simp
        omega

theorem concatWithMaxLimit_bounded_witness :
    concatWithMaxLimit [0, 1] [2, 3, 4] 4 = [0, 1] ++ [2, 3] ∧
    (concatWithMaxLimit [0, 1] [2, 3, 4] 4).length = min 4 5 := by
  have h := concatWithMaxLimit_bounded [0, 1] [2, 3, 4] 4
  exact ⟨by rw [h.1]; decide, h.2.1 (by decide)⟩

/-- C9: a numeric `batchSizeTrigger` option is stored as `max b 1`, so a
configured `0` becomes `1`, and past the concurrency guard a cut from a
non-empty queue always takes at least one event. -/
theorem mkTransmission_batchSizeTrigger_floor (b : Nat) (opts : TransmissionOptions) :
    (mkTransmission { opts with batchSizeTrigger := some b }).batchSizeTrigger = max b 1 ∧
    (mkTransmission { opts with batchSizeTrigger := some 0 }).batchSizeTrigger = 1 ∧
    (∀ s : TransmissionState, s.eventQueue ≠ [] → s.batchCount ≠ maxConcurrentBatches →
      (sendBatchStart (mkTransmission { opts with batchSizeTrigger := some b }) s).2 ≠ []) := by
  refine ⟨rfl, rfl, fun s hq hc => ?_⟩
  unfold sendBatchStart
  rw [if_neg hc]
  simp only
  intro h
  rw [List.take_eq_nil_iff] at h
  rcases h with h | h
  · have hb : (mkTransmission { opts with batchSizeTrigger := some b }).batchSizeTrigger
        = max b 1 := rfl
    rw [hb] at h
    omega
  · exact hq h

theorem mkTransmission_batchSizeTrigger_floor_witness :
    (mkTransmission { batchSizeTrigger := some 0 }).batchSizeTrigger = 1 ∧
    (sendBatchStart (mkTransmission { batchSizeTrigger := some 0 })
        { initState with eventQueue := [taggedEvent 7] }).2 ≠ [] := by
  have h := mkTransmission_batchSizeTrigger_floor 0 {}
  exact ⟨h.2.1, h.2.2 _ (by decide) (by decide)⟩

/-- C2: with the build target "browser" the batch POST headers carry the
libhoney user-agent value under `X-Honeycomb-UserAgent` and contain no
`User-Agent` header; with any other target (the server builds, e.g.
"node") the same value is sent under `User-Agent` and no
`X-Honeycomb-UserAgent` header appears. -/
theorem batchRequestHeaders_userAgent (writeKey addition : String) :
    ("X-Honeycomb-UserAgent", userAgentHeaderValue addition)
        ∈ batchRequestHeaders "browser" writeKey addition ∧
    (∀ v, ("User-Agent", v) ∉ batchRequestHeaders "browser" writeKey addition) ∧
    (∀ target, target ≠ "browser" →
      ("User-Agent", userAgentHeaderValue addition)
          ∈ batchRequestHeaders target writeKey addition ∧
      ∀ v, ("X-Honeycomb-UserAgent", v) ∉ batchRequestHeaders target writeKey addition) := by
  refine ⟨?_, ?_, fun target ht => ⟨?_, ?_⟩⟩
  · simp [batchRequestHeaders, uaHeaderName]
  · intro v hv
    simp [batchRequestHeaders, uaHeaderName] at hv
  · simp [batchRequestHeaders, uaHeaderName, ht]
  · intro v hv
    simp [batchRequestHeaders, uaHeaderName, ht] at hv

theorem batchRequestHeaders_userAgent_witness :
    ("X-Honeycomb-UserAgent", "libhoney-js/3.1.1")
        ∈ batchRequestHeaders "browser" "123456789" "" ∧
    ("User-Agent", "libhoney-js/3.1.1") ∉ batchRequestHeaders "browser" "123456789" "" ∧
    ("User-Agent", "libhoney-js/3.1.1") ∈ batchRequestHeaders "node" "123456789" "" := by
  have h := batchRequestHeaders_userAgent "123456789" ""
  have hua : userAgentHeaderValue "" = "libhoney-js/3.1.1" := by decide
  exact ⟨hua ▸ h.1, h.2.1 _, hua ▸ (h.2.2 "node" (by decide)).1⟩

/-- C3 counterexample: for an event with `sampleRate = 1` the claim says
the encoded object omits the `samplerate` key, but `toJSON` emits
`samplerate: 1` (line 119 tests JS truthiness, and `1` is truthy). -/
theorem toJSON_samplerate_one_present :
    sampledOnceEvent.sampleRate = some 1 ∧
    ("samplerate", JVal.jnum 1) ∈ sampledOnceEvent.toJSON := by
  constructor
  · rfl
  · decide

/-- C3 amended: the encoded object carries `time` with the timestamp
whenever the timestamp is present, carries `samplerate` exactly when
`sampleRate` is present and non-zero (so `sampleRate = 1` IS serialized;
only an absent or zero rate is omitted), and carries `data` exactly when
`postData` is present. -/
theorem toJSON_keys (ev : ValidatedEvent) :
    (∀ ts, ev.timestamp = some ts → ("time", JVal.jstr ts) ∈ ev.toJSON) ∧
    ((∃ v, ("samplerate", v) ∈ ev.toJSON) ↔ jsTruthyNum ev.sampleRate = true) ∧
    (∀ q, ev.sampleRate = some q → q ≠ 0 → ("samplerate", JVal.jnum q) ∈ ev.toJSON) ∧
    ((∃ v, ("data", v) ∈ ev.toJSON) ↔ ev.postData.isSome = true) ∧
    ((∃ v, ("time", v) ∈ ev.toJSON) ↔ ev.timestamp.isSome = true) := by
  obtain ⟨ts, ah, pd, wk, ds, sr, md, ee⟩ := ev
  simp only [ValidatedEvent.toJSON]
  rcases sr with _ | q
  · rcases ts with _ | t <;> rcases pd with _ | p <;>
      simp [jsTruthyNum]
  · rcases ts with _ | t <;> rcases pd with _ | p <;> by_cases hq : q = 0 <;>
      simp [jsTruthyNum, hq]

theorem toJSON_keys_witness :
    ("time", JVal.jstr "2026-01-01T00:00:00.000Z") ∈ sampledOnceEvent.toJSON ∧
    ("samplerate", JVal.jnum 1) ∈ sampledOnceEvent.toJSON := by
  have h := toJSON_keys sampledOnceEvent
  exact ⟨h.1 _ rfl, h.2.2.1 1 rfl (by norm_num)⟩

/-- C6: at or above `pendingWorkCapacity`, `sendPresampledEvent` emits
exactly one outcome, with error "queue overflow" and the event's metadata,
and leaves queue, timer, in-flight count and flush state untouched; below
capacity it emits no outcome and appends the event to the queue, after
which the normal size trigger may immediately cut a batch prefix. -/
theorem sendPresampledEvent_overflow (cfg : TransmissionConfig)
    (s : TransmissionState) (ev : ValidatedEvent) :
    (cfg.pendingWorkCapacity ≤ s.eventQueue.length →
      sendPresampledEvent cfg s ev =
        { s with outcomes :=
            s.outcomes ++ [{ metadata := ev.metadata, error := some "queue overflow" }] }) ∧
    (s.eventQueue.length < cfg.pendingWorkCapacity →
      (sendPresampledEvent cfg s ev).outcomes = s.outcomes ∧
      ((sendPresampledEvent cfg s ev).eventQueue = s.eventQueue ++ [ev] ∨
        (sendPresampledEvent cfg s ev).eventQueue =
          (s.eventQueue ++ [ev]).drop cfg.batchSizeTrigger)) := by
  constructor
  · intro h
    unfold sendPresampledEvent
    rw [if_pos h]
    rfl
  · intro h
    unfold sendPresampledEvent
    rw [if_neg (by omega)]
    simp only
    split
    · unfold sendBatchStart
      split
      · exact ⟨rfl, Or.inl rfl⟩
      · exact ⟨rfl, Or.inr rfl⟩
    · exact ⟨rfl, Or.inl rfl⟩

theorem sendPresampledEvent_overflow_witness :
    (sendPresampledEvent (mkTransmission { pendingWorkCapacity := some 0 })
        initState (taggedEvent 3)).outcomes =
      [{ metadata := 3, error := some "queue overflow" }] ∧
    (sendPresampledEvent (mkTransmission {}) initState (taggedEvent 3)).outcomes = [] := by
  have h1 := (sendPresampledEvent_overflow (mkTransmission { pendingWorkCapacity := some 0 })
    initState (taggedEvent 3)).1 (by decide)
  have h2 := (sendPresampledEvent_overflow (mkTransmission {})
    initState (taggedEvent 3)).2 (by decide)
  exact ⟨by rw [h1]; rfl, h2.1⟩



/-- C8 counterexample: after one send (batch in flight) the flush call
tagged 1 is registered as a waiter (not returned complete); a second flush
call overwrites the callback slot; the batch completion then reaches
(empty queue, zero in-flight) but resolves only waiter 2.  Waiter 1 never
resolves: no waiter remains registered and the resolution log of the whole
trace is `[2]`. -/
theorem flush_waiter_clobbered :
    (flushStep (runTrace cutEachConfig [Step.sendPresampled (taggedEvent 0)]) 1).2 = false ∧
    (runTrace cutEachConfig (doubleFlushTrace.take 2)).flushWaiter = some 1 ∧
    (runTrace cutEachConfig doubleFlushTrace).eventQueue = [] ∧
    (runTrace cutEachConfig doubleFlushTrace).batchCount = 0 ∧
    (runTrace cutEachConfig doubleFlushTrace).flushWaiter = none ∧
    (runTrace cutEachConfig doubleFlushTrace).resolvedFlushes = [2] := by
  refine ⟨rfl, rfl, rfl, rfl, rfl, rfl⟩

/-- C8 amended: `flush` returns an already-completed signal iff the queue
is empty and nothing is in flight (and then changes no state); otherwise
it stores its resolver in the single callback slot, replacing any earlier
unresolved waiter.  The stored waiter resolves exactly at a batch
completion that reaches (empty queue, zero in-flight), the resolution
clears the slot, and no other dispatcher input resolves waiters. -/
theorem flush_resolution (cfg : TransmissionConfig) (s : TransmissionState) (id : Nat) :
    ((flushStep s id).2 = true ↔ (s.eventQueue = [] ∧ s.batchCount = 0)) ∧
    ((flushStep s id).2 = true → (flushStep s id).1 = s) ∧
    ((flushStep s id).2 = false → (flushStep s id).1 = { s with flushWaiter := some id }) ∧
    ((finishBatch cfg s).resolvedFlushes =
      s.resolvedFlushes ++
        (match s.flushWaiter with
          | some j => if s.eventQueue = [] ∧ s.batchCount - 1 = 0 then [j] else []
          | none => [])) ∧
    (∀ j, s.flushWaiter = some j → s.eventQueue = [] → s.batchCount - 1 = 0 →
      (finishBatch cfg s).flushWaiter = none ∧
      (finishBatch cfg s).resolvedFlushes = s.resolvedFlushes ++ [j]) ∧
    (∀ r ev, (sendEvent cfg s r ev).resolvedFlushes = s.resolvedFlushes) ∧
    (∀ ev, (sendPresampledEvent cfg s ev).resolvedFlushes = s.resolvedFlushes) ∧
    ((sendBatchStart cfg s).1.resolvedFlushes = s.resolvedFlushes) := by
  have hstart : ∀ t : TransmissionState,
      (sendBatchStart cfg t).1.resolvedFlushes = t.resolvedFlushes := by
    intro t
    unfold sendBatchStart
    split
    · rfl
    · rfl
  have hpre : ∀ (t : TransmissionState) ev,
      (sendPresampledEvent cfg t ev).resolvedFlushes = t.resolvedFlushes := by
    intro t ev
    unfold sendPresampledEvent
    split
    · rfl
    · simp only
      split
      · rw [hstart]
      · rfl
  refine ⟨?_, ?_, ?_, ?_, ?_, ?_, fun ev => hpre s ev, hstart s⟩
  · unfold flushStep
    split
    · rename_i h
      simp only [List.length_eq_zero] at h
      simpa using h
    · rename_i h
      simp only [List.length_eq_zero] at h
      simpa using h
  · intro h
    unfold flushStep at h ⊢
    split at h
    · rename_i hcond
      rw [if_pos hcond]
    · simp at h
  · intro h
    unfold flushStep at h ⊢
    split at h
    · simp at h
    · rename_i hcond
      rw [if_neg hcond]
  · unfold finishBatch
    simp only
    by_cases hq : s.eventQueue.length > 0
    · rw [if_pos hq]
      have hqne : s.eventQueue ≠ [] := by
        intro h0
        rw [h0] at hq
        simp at hq
      cases hw : s.flushWaiter
      · split
        · rw [hstart]
          simp
        · simp
      · split
        · rw [hstart]
          simp [hqne]
        · simp [hqne]
    · rw [if_neg hq]
      have hqe : s.eventQueue = [] := List.eq_nil_of_length_eq_zero (by omega)
      cases hw : s.flushWaiter
      · simp
      · by_cases hb : s.batchCount - 1 = 0
        · simp [hqe, hb]
        · simp [hqe, hb]
  · intro j hw hqe hb
    unfold finishBatch
    simp only
    rw [if_neg (by rw [hqe]; simp), hw]
    simp [hb]
  · intro r ev
    unfold sendEvent
    split
    · rfl
    · exact hpre s ev

theorem flush_resolution_witness :
    (flushStep initState 9).2 = true ∧
    (finishBatch cutEachConfig
        { initState with batchCount := 1, flushWaiter := some 9 }).flushWaiter = none ∧
    (finishBatch cutEachConfig
        { initState with batchCount := 1, flushWaiter := some 9 }).resolvedFlushes = [9] := by
  have h1 := flush_resolution cutEachConfig initState 9
  have h2 := flush_resolution cutEachConfig
    { initState with batchCount := 1, flushWaiter := some 9 } 9
  have hr := h2.2.2.2.2.1 9 rfl rfl rfl
  exact ⟨h1.1.mpr ⟨rfl, rfl⟩, hr.1, hr.2⟩

/-- C1 (code bug): `_sendBatch` guards on the module constant
`maxConcurrentBatches` (10), not on the configured
`this._maxConcurrentBatches` (a dead store).  With the cap configured to
5, six presampled sends with no completions drive the in-flight count to
6, and the cut performed at a count equal to the configured maximum still
takes the queued event and increments the count. -/
theorem sendBatch_ignores_configured_cap :
    fiveBatchConfig.maxConcurrentBatches = 5 ∧
    (runTrace fiveBatchConfig sixSendsTrace).batchCount = 6 ∧
    stateAtConfiguredCap.batchCount = fiveBatchConfig.maxConcurrentBatches ∧
    (sendBatchStart fiveBatchConfig stateAtConfiguredCap).1.batchCount = 6 ∧
    (sendBatchStart fiveBatchConfig stateAtConfiguredCap).2 = [taggedEvent 5] := by
  refine ⟨rfl, rfl, rfl, rfl, rfl⟩

theorem encodeBatchEventsAux_events (st : ValidatedEvent → Except String String) :
    ∀ (events : List ValidatedEvent) (first : Bool) (n : Nat) (acc : String),
      (encodeBatchEventsAux st events first n acc).2.2 = markEncodeErrors st events := by
  intro events
  induction events with
  | nil => intro first n acc; rfl
  | cons ev rest ih =>
    intro first n acc
    cases hev : st ev with
    | ok s => simp [encodeBatchEventsAux, markEncodeErrors, hev, ih]
    | error e => simp [encodeBatchEventsAux, markEncodeErrors, hev, ih]

theorem encodeBatchEventsAux_num (st : ValidatedEvent → Except String String) :
    ∀ (events : List ValidatedEvent) (first : Bool) (n : Nat) (acc : String),
      (encodeBatchEventsAux st events first n acc).2.1 = n + (encodedList st events).length := by
  intro events
  induction events with
  | nil => intro first n acc; simp [encodeBatchEventsAux, encodedList]
  | cons ev rest ih =>
    intro first n acc
    cases hev : st ev with
    | ok s =>
      simp [encodeBatchEventsAux, encodedList, hev, ih, Except.toOption]
      omega
    | error e =>
      simp [encodeBatchEventsAux, encodedList, hev, ih, Except.toOption]

theorem encodeBatchEventsAux_acc_false (st : ValidatedEvent → Except String String) :
    ∀ (events : List ValidatedEvent) (n : Nat) (acc : String),
      (encodeBatchEventsAux st events false n acc).1 =
        acc ++ strConcat ((encodedList st events).map (fun s => "," ++ s)) := by
  intro events
  induction events with
  | nil => intro n acc; simp [encodeBatchEventsAux, encodedList, strConcat]
  | cons ev rest ih =>
    intro n acc
    cases hev : st ev with
    | ok s =>
      simp [encodeBatchEventsAux, encodedList, hev, ih, Except.toOption, strConcat,
        String.append_assoc]
    | error e =>
      simp [encodeBatchEventsAux, encodedList, hev, ih, Except.toOption]

theorem encodeBatchEventsAux_acc_true (st : ValidatedEvent → Except String String) :
    ∀ (events : List ValidatedEvent) (n : Nat) (acc : String),
      (encodeBatchEventsAux st events true n acc).1 =
        acc ++ joinSep "," (encodedList st events) := by
  intro events
  induction events with
  | nil => intro n acc; simp [encodeBatchEventsAux, encodedList, joinSep]
  | cons ev rest ih =>
    intro n acc
    cases hev : st ev with
    | ok s =>
      simp [encodeBatchEventsAux, encodedList, hev, Except.toOption, joinSep,
        encodeBatchEventsAux_acc_false, String.append_assoc]
    | error e =>
      simp [encodeBatchEventsAux, encodedList, hev, ih, Except.toOption]

/-- C5: `encodeBatchEvents` serializes the events in order: the body is the
bracketed comma-join of exactly the successful serializations (throwing
events are omitted while the rest still encode), `numEncoded` counts the
successes, an event whose serialization threw `e` comes back with
`encodeError = e` and every other event comes back unchanged; and when
`numEncoded = 0` the partition makes no HTTP request — it maps every event
to an outcome carrying its `encodeError`, all of which are set. -/
theorem encodeBatchEvents_partition (stringify : ValidatedEvent → Except String String)
    (events : List ValidatedEvent) :
    (encodeBatchEvents stringify events).numEncoded = (encodedList stringify events).length ∧
    (encodeBatchEvents stringify events).encoded =
      "[" ++ joinSep "," (encodedList stringify events) ++ "]" ∧
    (encodeBatchEvents stringify events).events = markEncodeErrors stringify events ∧
    (∀ j ev, events.get? j = some ev →
      (∀ s, stringify ev = .ok s →
        (encodeBatchEvents stringify events).events.get? j = some ev) ∧
      (∀ e, stringify ev = .error e →
        (encodeBatchEvents stringify events).events.get? j =
          some { ev with encodeError := some e })) ∧
    ((encodeBatchEvents stringify events).numEncoded = 0 →
      partitionAction stringify events =
        PartitionAction.noSend ((encodeBatchEvents stringify events).events.map
          (fun ev => { metadata := ev.metadata, error := ev.encodeError })) ∧
      ∀ ev ∈ (encodeBatchEvents stringify events).events, ev.encodeError.isSome = true) := by
  have hrec : encodeBatchEvents stringify events =
      { encoded := "[" ++ (encodeBatchEventsAux stringify events true 0 "").1 ++ "]",
        numEncoded := (encodeBatchEventsAux stringify events true 0 "").2.1,
        events := (encodeBatchEventsAux stringify events true 0 "").2.2 } := rfl
  have hnum : (encodeBatchEvents stringify events).numEncoded =
      (encodedList stringify events).length := by
    rw [hrec]
    simp only
    rw [encodeBatchEventsAux_num]
    omega
  have hevs : (encodeBatchEvents stringify events).events =
      markEncodeErrors stringify events := by
    rw [hrec]
    simp only
    rw [encodeBatchEventsAux_events]
  refine ⟨hnum, ?_, hevs, ?_, ?_⟩
  · rw [hrec]
    simp only
    rw [encodeBatchEventsAux_acc_true]
    rw [String.empty_append]
  · intro j ev hj
    constructor
    · intro s hs
      rw [hevs]
      unfold markEncodeErrors
      rw [List.get?_map, hj]
      simp [hs]
    · intro e he
      rw [hevs]
      unfold markEncodeErrors
      rw [List.get?_map, hj]
      simp [he]
  · intro h0
    constructor
    · unfold partitionAction
      simp only
      rw [if_pos h0]
    · intro ev hev
      rw [hevs] at hev
      have hel : encodedList stringify events = [] := by
        rw [hnum] at h0
        exact List.eq_nil_of_length_eq_zero h0
      have hall : ∀ a ∈ events, (stringify a).toOption = none := by
        have := List.filterMap_eq_nil_iff.mp hel
        exact this
      rcases List.mem_map.mp hev with ⟨ev0, hev0, heq⟩
      have := hall ev0 hev0
      cases hst : stringify ev0 with
      | ok s =>
        rw [hst] at this
        simp [Except.toOption] at this
      | error e =>
        rw [hst] at heq
        rw [← heq]
        rfl

theorem encodeBatchEvents_partition_witness :
    (encodeBatchEvents
        (fun ev => if ev.metadata = 1 then Except.error "circular" else Except.ok "{}")
        [taggedEvent 0, taggedEvent 1, taggedEvent 2]).numEncoded = 2 ∧
    (encodeBatchEvents
        (fun ev => if ev.metadata = 1 then Except.error "circular" else Except.ok "{}")
        [taggedEvent 0, taggedEvent 1, taggedEvent 2]).encoded = "[" ++ joinSep "," ["{}", "{}"] ++ "]" ∧
    (encodeBatchEvents
        (fun ev => if ev.metadata = 1 then Except.error "circular" else Except.ok "{}")
        [taggedEvent 0, taggedEvent 1, taggedEvent 2]).events.get? 1 =
      some { taggedEvent 1 with encodeError := some "circular" } ∧
    partitionAction (fun _ => Except.error "circular") [taggedEvent 0] =
      PartitionAction.noSend [{ metadata := 0, error := some "circular" }] := by
  have h := encodeBatchEvents_partition
    (fun ev => if ev.metadata = 1 then Except.error "circular" else Except.ok "{}")
    [taggedEvent 0, taggedEvent 1, taggedEvent 2]
  have h2 := encodeBatchEvents_partition (fun _ => Except.error "circular") [taggedEvent 0]
  refine ⟨?_, ?_, ?_, ?_⟩
  · rw [h.1]
    rfl
  · rw [h.2.1]
    rfl
  · exact ((h.2.2.2.1) 1 (taggedEvent 1) rfl).2 "circular" rfl
  · have := (h2.2.2.2.2 (by rw [h2.1]; rfl)).1
    rw [this]
    rfl

theorem mapBatchResponses_length (dur : Nat) (rd : List BatchResponse) :
    ∀ (events : List ValidatedEvent) (idx : Nat),
      (mapBatchResponses dur rd events idx).length = events.length := by
  intro events
  induction events with
  | nil => intro idx; rfl
  | cons ev rest ih =>
    intro idx
    cases hee : ev.encodeError with
    | some e => simp [mapBatchResponses, hee, ih]
    | none => simp [mapBatchResponses, hee, ih]

theorem mapBatchResponses_get? (dur : Nat) (rd : List BatchResponse) :
    ∀ (events : List ValidatedEvent) (idx j : Nat),
      (mapBatchResponses dur rd events idx).get? j =
        (events.get? j).map (fun ev =>
          match ev.encodeError with
          | some e => { duration := some dur, metadata := ev.metadata, error := some e }
          | none =>
            { status_code := (rd.get? (idx + encodedCount (events.take j))).map BatchResponse.status,
              duration := some dur,
              metadata := ev.metadata,
              error := (rd.get? (idx + encodedCount (events.take j))).bind BatchResponse.err }) := by
  intro events
  induction events with
  | nil => intro idx j; simp [mapBatchResponses]
  | cons ev rest ih =>
    intro idx j
    cases j with
    | zero =>
      cases hee : ev.encodeError with
      | some e => simp [mapBatchResponses, hee, encodedCount]
      | none => simp [mapBatchResponses, hee, encodedCount]
    | succ j =>
      cases hee : ev.encodeError with
      | some e =>
        have harith : idx + encodedCount ((ev :: rest).take (j + 1)) =
            idx + encodedCount (rest.take j) := by
          simp [encodedCount, List.take_succ_cons, List.countP_cons, hee]
        simp only [mapBatchResponses, hee, List.get?_cons_succ, List.take_succ_cons]
        rw [ih idx j]
        congr 1
        funext ev'
        simp [encodedCount, List.countP_cons, hee]
      | none =>
        simp only [mapBatchResponses, hee, List.get?_cons_succ, List.take_succ_cons]
        rw [ih (idx + 1) j]
        congr 1
        funext ev'
        have harith : idx + 1 + encodedCount (rest.take j) =
            idx + encodedCount (ev :: rest.take j) := by
          simp [encodedCount, List.countP_cons, hee]
          omega
        rw [harith]

theorem encodedCount_take_lt :
    ∀ (events : List ValidatedEvent) (j : Nat) (ev : ValidatedEvent),
      events.get? j = some ev → ev.encodeError = none →
      encodedCount (events.take j) < encodedCount events := by
  intro events
  induction events with
  | nil => intro j ev hj; simp at hj
  | cons a rest ih =>
    intro j ev hj hee
    cases j with
    | zero =>
      simp at hj
      subst hj
      simp [encodedCount, List.countP_cons, hee]
    | succ j =>
      simp only [List.get?_cons_succ] at hj
      have hih := ih j ev hj hee
      simp only [encodedCount, List.take_succ_cons, List.countP_cons] at hih ⊢
      omega

/-- C4: on a 2xx response whose array is parallel to the successfully
encoded events, the fan-out emits one outcome per event of the partition;
an event with `encodeError` gets the outcome carrying that error (and
consumes no response slot), and an event without one takes `status_code`
and `error` from the response element at its encoded index — the number of
encode-ok events before it. -/
theorem mapBatchResponses_fanout (dur : Nat) (rd : List BatchResponse)
    (events : List ValidatedEvent)
    (h : rd.length = encodedCount events) :
    (mapBatchResponses dur rd events 0).length = events.length ∧
    (∀ j ev, events.get? j = some ev →
      (∀ e, ev.encodeError = some e →
        (mapBatchResponses dur rd events 0).get? j =
          some { duration := some dur, metadata := ev.metadata, error := some e }) ∧
      (ev.encodeError = none →
        ∃ resp, rd.get? (encodedCount (events.take j)) = some resp ∧
          (mapBatchResponses dur rd events 0).get? j =
            some { status_code := some resp.status, duration := some dur,
                   metadata := ev.metadata, error := resp.err })) := by
  refine ⟨mapBatchResponses_length dur rd events 0, ?_⟩
  intro j ev hj
  constructor
  · intro e hee
    rw [mapBatchResponses_get? dur rd events 0 j, hj]
    simp [hee]
  · intro hee
    have hlt : encodedCount (events.take j) < encodedCount events :=
      encodedCount_take_lt events j ev hj hee
    have hidx : encodedCount (events.take j) < rd.length := by omega
    have hsome : ∃ resp, rd.get? (encodedCount (events.take j)) = some resp :=
      ⟨rd.get ⟨_, hidx⟩, List.get?_eq_get hidx⟩
    rcases hsome with ⟨resp, hresp⟩
    refine ⟨resp, hresp, ?_⟩
    rw [mapBatchResponses_get? dur rd events 0 j, hj]
    rw [List.get?_eq_getElem?] at hresp
    simp [hee, hresp]

theorem mapBatchResponses_fanout_witness :
    (mapBatchResponses 7 [{ status := 202 }, { status := 400, err := some "bad" }]
        [taggedEvent 0, { taggedEvent 1 with encodeError := some "boom" }, taggedEvent 2]
        0).length = 3 ∧
    (mapBatchResponses 7 [{ status := 202 }, { status := 400, err := some "bad" }]
        [taggedEvent 0, { taggedEvent 1 with encodeError := some "boom" }, taggedEvent 2]
        0).get? 1 =
      some { duration := some 7, metadata := 1, error := some "boom" } ∧
    (mapBatchResponses 7 [{ status := 202 }, { status := 400, err := some "bad" }]
        [taggedEvent 0, { taggedEvent 1 with encodeError := some "boom" }, taggedEvent 2]
        0).get? 2 =
      some { status_code := some 400, duration := some 7, metadata := 2,
             error := some "bad" } := by
  have h := mapBatchResponses_fanout 7
    [{ status := 202 }, { status := 400, err := some "bad" }]
    [taggedEvent 0, { taggedEvent 1 with encodeError := some "boom" }, taggedEvent 2]
    (by rfl)
  refine ⟨h.1, ?_, ?_⟩
  · exact (h.2 1 { taggedEvent 1 with encodeError := some "boom" } rfl).1 "boom" rfl
  · rcases (h.2 2 (taggedEvent 2) rfl).2 rfl with ⟨resp, hresp, hout⟩
    have : resp = { status := 400, err := some "bad" } := by
      rw [show encodedCount ([taggedEvent 0,
        { taggedEvent 1 with encodeError := some "boom" }, taggedEvent 2].take 2) = 1 from rfl] at hresp
      simpa using hresp.symm
    rw [hout, this]
    rfl

/-- C7: with the random source returning `r`, an event carrying
`sampleRate = sr` passes the sampling gate iff `sr ≤ 1` or `r < 1/sr`;
when it passes, `sendEvent` behaves exactly as `sendPresampledEvent`;
when it fails, the only effect is one outcome with error
"event dropped due to sampling" and the event's metadata — no queue,
timer, batch-count or flush-state mutation. -/
theorem sendEvent_sampling (cfg : TransmissionConfig) (s : TransmissionState)
    (r sr : ℚ) (ev : ValidatedEvent) (hsr : ev.sampleRate = some sr) :
    (shouldSendEvent r ev = true ↔ (sr ≤ 1 ∨ r < 1 / sr)) ∧
    (shouldSendEvent r ev = true →
      sendEvent cfg s r ev = sendPresampledEvent cfg s ev) ∧
    (shouldSendEvent r ev = false →
      sendEvent cfg s r ev =
        { s with outcomes :=
            s.outcomes ++
              [{ metadata := ev.metadata, error := some "event dropped due to sampling" }] }) := by
  refine ⟨?_, ?_, ?_⟩
  · unfold shouldSendEvent
    rw [hsr]
    by_cases h1 : sr ≤ 1
    · simp [h1]
    · simp [h1]
  · intro h
    unfold sendEvent
    rw [h]
    rfl
  · intro h
    unfold sendEvent
    rw [h]
    rfl

theorem sendEvent_sampling_witness :
    (shouldSendEvent (11/100) (sampledEvent 10) = false ∧
      sendEvent cutEachConfig initState (11/100) (sampledEvent 10) =
        { initState with outcomes :=
            [{ metadata := 0, error := some "event dropped due to sampling" }] }) ∧
    (shouldSendEvent (9/100) (sampledEvent 10) = true ∧
      sendEvent cutEachConfig initState (9/100) (sampledEvent 10) =
        sendPresampledEvent cutEachConfig initState (sampledEvent 10)) := by
  have h1 := sendEvent_sampling cutEachConfig initState (11/100) 10 (sampledEvent 10) rfl
  have h2 := sendEvent_sampling cutEachConfig initState (9/100) 10 (sampledEvent 10) rfl
  have e1 : shouldSendEvent (11/100) (sampledEvent 10) = false := by
    cases hb : shouldSendEvent (11/100) (sampledEvent 10)
    · rfl
    · exfalso
      rcases h1.1.mp hb with h | h <;> norm_num at h
  have e2 : shouldSendEvent (9/100) (sampledEvent 10) = true :=
    h2.1.mpr (Or.inr (by norm_num))
  exact ⟨⟨e1, h1.2.2 e1⟩, ⟨e2, h2.2.1 e2⟩⟩

end Libhoney
